import Mathlib

/-!
Shallow embedding of the metrics-computation engine of the Product
Analytics Dashboard repository (the SQL queries of
`src/python_analysis.py` and the metric queries of
`src/dashboard_app.py`), together with theorems settling the frozen
claims about it.

Modelling conventions, chosen to match the source exactly:

* Dates.  Every query reads timestamps only through `DATE(...)` or
  `strftime('%Y-%m', ...)`, i.e. at day granularity, so an event
  timestamp is embedded as its civil day number (days since
  1970-01-01).  Day numbers and the proleptic Gregorian calendar are
  related by the standard days-from-civil / civil-from-days
  algorithms.  A `julianday` difference of two DATE values equals the
  day-number difference.  A month bucket (`strftime '%Y-%m'`, pandas
  `Period[M]`) is embedded as the linear month index
  `12 * year + (month - 1)`, which is strictly monotone in the
  `YYYY-MM` strings the queries group and order by.

* Grouping and ordering.  SQLite's `GROUP BY k` (no index) emits one
  row per key in ascending key order, and pandas `groupby` sorts keys
  ascending; both are embedded as mapping over the sorted
  deduplicated key list (`sortDedup`).  SQLite's `ORDER BY` sorter
  appends a sequence number to equal keys, so it keeps the input
  order of ties (a stable sort); it is embedded as an insertion sort,
  which is stable.

* Numbers.  Rates and averages are rationals; SQLite's `ROUND(x, 2)`
  (round half away from zero; every rounded value here is
  nonnegative) is `round2`.  SQL `AVG` of an empty set is NULL,
  embedded as `Option`.
-/

set_option maxRecDepth 8000

namespace ProductAnalytics

/-- Civil day number of a proleptic-Gregorian date (days-from-civil,
floor-division form; day 0 = 1970-01-01). -/
def daysFromCivil (y m d : Int) : Int :=
  let yy := if m ≤ 2 then y - 1 else y
  let era := Int.fdiv yy 400
  let yoe := yy - era * 400
  let mp := if 2 < m then m - 3 else m + 9
  let doy := Int.fdiv (153 * mp + 2) 5 + d - 1
  let doe := yoe * 365 + Int.fdiv yoe 4 - Int.fdiv yoe 100 + doy
  era * 146097 + doe - 719468

/-- Year and month of a civil day number (civil-from-days,
floor-division form). -/
def yearMonthOf (z : Int) : Int × Int :=
  let zz := z + 719468
  let era := Int.fdiv zz 146097
  let doe := zz - era * 146097
  let yoe := Int.fdiv (doe - Int.fdiv doe 1460 + Int.fdiv doe 36524 - Int.fdiv doe 146096) 365
  let y := yoe + era * 400
  let doy := doe - (365 * yoe + Int.fdiv yoe 4 - Int.fdiv yoe 100)
  let mp := Int.fdiv (5 * doy + 2) 153
  let m := if mp < 10 then mp + 3 else mp - 9
  (if m ≤ 2 then y + 1 else y, m)

/-- Month bucket (`strftime '%Y-%m'`) of a day number, as the linear
month index `12 * year + (month - 1)`. -/
def monthOf (z : Int) : Int :=
  12 * (yearMonthOf z).1 + ((yearMonthOf z).2 - 1)

/-- SQLite `ROUND(q, 2)` for nonnegative `q`: round half away from
zero to two decimal places. -/
def round2 (q : ℚ) : ℚ :=
  (⌊q * 100 + 1 / 2⌋ : ℚ) / 100

/-- A row of the `users` table after cleaning (`user_id` unique,
`signup_date` non-null). -/
structure Usr where
  user_id : Nat
  signup_date : Int
  plan : String
  country : String
deriving DecidableEq, Repr

/-- A row of the `events` table after cleaning (`event_id` unique,
`user_id` and `timestamp` non-null, `session_duration` defaulted to
0); `date` is `DATE(timestamp)` as a day number. -/
structure Event where
  event_id : Nat
  user_id : Nat
  date : Int
  feature : Option String
  session_duration : ℚ
deriving DecidableEq, Repr

/-- The distinct values of a list, sorted ascending w.r.t. `r`: the
key sequence a SQLite `GROUP BY` (or a pandas `groupby`) emits. -/
def sortDedup {α : Type} (r : α → α → Prop) [DecidableRel r] [DecidableEq α]
    (l : List α) : List α :=
  List.insertionSort r l.dedup

theorem mem_sortDedup {α : Type} (r : α → α → Prop) [DecidableRel r] [DecidableEq α]
    {a : α} {l : List α} : a ∈ sortDedup r l ↔ a ∈ l := by
  unfold sortDedup
  rw [(List.perm_insertionSort r l.dedup).mem_iff, List.mem_dedup]

theorem nodup_sortDedup {α : Type} (r : α → α → Prop) [DecidableRel r] [DecidableEq α]
    (l : List α) : (sortDedup r l).Nodup :=
  (List.perm_insertionSort r l.dedup).nodup_iff.mpr l.nodup_dedup

theorem sorted_sortDedup {α : Type} (r : α → α → Prop) [DecidableRel r] [DecidableEq α]
    [IsTotal α r] [IsTrans α r] (l : List α) : List.Sorted r (sortDedup r l) :=
  List.sorted_insertionSort r l.dedup

/-- Two `sortDedup`s (over an antisymmetric total order) with the same
underlying membership agree. -/
theorem sortDedup_congr {α : Type} (r : α → α → Prop) [DecidableRel r] [DecidableEq α]
    [IsTotal α r] [IsTrans α r] [IsAntisymm α r] {l₁ l₂ : List α}
    (h : ∀ a, a ∈ l₁ ↔ a ∈ l₂) : sortDedup r l₁ = sortDedup r l₂ := by
  refine List.eq_of_perm_of_sorted ?_ (sorted_sortDedup r l₁) (sorted_sortDedup r l₂)
  refine (List.perm_ext_iff_of_nodup (nodup_sortDedup r l₁) (nodup_sortDedup r l₂)).mpr ?_
  intro a
  rw [mem_sortDedup, mem_sortDedup]
  exact h a

/-- `COUNT(DISTINCT ...)` over a list of values. -/
def distinctCount {α : Type} [DecidableEq α] (l : List α) : Nat :=
  l.dedup.length

/-- `MIN` over a nonempty list of day numbers (never applied to `[]`
by the engine: every aggregate below ranges over a nonempty group). -/
def minimumD : List Int → Int
  | [] => 0
  | x :: xs => xs.foldl min x

/-- `MAX` over a nonempty list of day numbers. -/
def maximumD : List Int → Int
  | [] => 0
  | x :: xs => xs.foldl max x

/-- The distinct `user_id`s active on day `d`. -/
def usersOnDate (events : List Event) (d : Int) : List Nat :=
  (events.filter (fun e => e.date = d)).map (fun e => e.user_id)

/-- The distinct `user_id`s with an event in month bucket `m`. -/
def usersInMonth (events : List Event) (m : Int) : List Nat :=
  (events.filter (fun e => monthOf e.date = m)).map (fun e => e.user_id)

/-- `calculate_dau_mau` (src/python_analysis.py): DAU = events grouped
by `DATE(timestamp)` ascending with `COUNT(DISTINCT user_id)`; MAU =
for each month of the DAU table (pandas `groupby('month')`, keys
sorted ascending), a per-month sub-query counting
`COUNT(DISTINCT user_id)` of the events whose `strftime('%Y-%m')`
equals that month. -/
def calculate_dau_mau (events : List Event) : List (Int × Nat) × List (Int × Nat) :=
  let dau := (sortDedup (· ≤ ·) (events.map (fun e => e.date))).map
    (fun d => (d, distinctCount (usersOnDate events d)))
  let mau := (sortDedup (· ≤ ·) (dau.map (fun p => monthOf p.1))).map
    (fun m => (m, distinctCount (usersInMonth events m)))
  (dau, mau)

/-- The `mau` query of `load_metrics` (src/dashboard_app.py): a single
group-by of events by `strftime('%Y-%m', timestamp)` with
`COUNT(DISTINCT user_id)`, ordered by month ascending. -/
def load_metrics_mau (events : List Event) : List (Int × Nat) :=
  (sortDedup (· ≤ ·) (events.map (fun e => monthOf e.date))).map
    (fun m => (m, distinctCount (usersInMonth events m)))

/-- `DATE(d, '+{days} days')` as interpolated by `calculate_retention`:
the query writes the Python integer after a literal `+`, so a negative
`days` yields the malformed modifier `'+-N days'`, which SQLite
rejects, making the expression NULL (no date). -/
def sqliteDateAdd (d days : Int) : Option Int :=
  if days < 0 then none else some (d + days)

/-- The `retention_check` CTE of `calculate_retention`: one row per
`(user, first_date)` when no event falls on `first_date + days`
(`returned = 0`), and — because the LEFT JOIN fans out — one row per
matching event otherwise (`returned = 1` each).  `first_activity`
groups by `user_id` ascending. -/
def retention_check (days : Int) (events : List Event) : List (Nat × Int × Nat) :=
  (sortDedup (· ≤ ·) (events.map (fun e => e.user_id))).flatMap (fun uid =>
    let first := minimumD ((events.filter (fun e => e.user_id = uid)).map (fun e => e.date))
    let matched := events.filter
      (fun e => e.user_id = uid ∧ some e.date = sqliteDateAdd first days)
    if matched.isEmpty then [(uid, first, 0)] else matched.map (fun _ => (uid, first, 1)))

/-- A row of the `calculate_retention` output. -/
structure RetentionRow where
  cohort : Int
  total_users : Nat
  retained_users : Nat
  retention_rate : ℚ
deriving DecidableEq, Repr

/-- `calculate_retention` (src/python_analysis.py): group the
`retention_check` rows by `strftime('%Y-%m', first_date)` ascending;
per cohort `total_users = COUNT(*)`, `retained_users = SUM(returned)`
and `retention_rate = ROUND(100.0 * SUM(returned) / COUNT(*), 2)`. -/
def calculate_retention (days : Int) (events : List Event) : List RetentionRow :=
  let rc := retention_check days events
  (sortDedup (· ≤ ·) (rc.map (fun r => monthOf r.2.1))).map (fun m =>
    let rows := rc.filter (fun r => monthOf r.2.1 = m)
    { cohort := m
      total_users := rows.length
      retained_users := (rows.filter (fun r => r.2.2 = 1)).length
      retention_rate :=
        round2 (100 * ((rows.filter (fun r => r.2.2 = 1)).length : ℚ) / rows.length) })

/-- A row of the churn-by-plan output. -/
structure ChurnRow where
  plan : String
  total_users : Nat
  churned : Nat
  churn_rate : ℚ
deriving DecidableEq, Repr

/-- `MAX(DATE(timestamp))` of a user's events (the `user_last_activity`
CTE); only evaluated for users with at least one event. -/
def lastActivity (events : List Event) (uid : Nat) : Int :=
  maximumD ((events.filter (fun e => e.user_id = uid)).map (fun e => e.date))

/-- Whether a user has at least one event (i.e. appears in the
`user_last_activity` CTE, so survives the inner join). -/
def hasEvent (events : List Event) (u : Usr) : Bool :=
  events.any (fun e => e.user_id = u.user_id)

/-- Churn-by-plan generalized over the reference date: users with at
least one event, `days_inactive = asOf - last_activity`
(julianday difference of DATE values = day-number difference), churned
iff `days_inactive > inactive_days`, grouped by plan ascending. -/
def churnWithAsOf (asOf inactive_days : Int) (users : List Usr)
    (events : List Event) : List ChurnRow :=
  let qualifying := users.filter (fun u => hasEvent events u)
  (sortDedup (· ≤ ·) (qualifying.map (fun u => u.plan))).map (fun p =>
    let us := qualifying.filter (fun u => u.plan = p)
    let churned :=
      (us.filter (fun u => inactive_days < asOf - lastActivity events u.user_id)).length
    { plan := p
      total_users := us.length
      churned := churned
      churn_rate := round2 (100 * (churned : ℚ) / us.length) })

/-- `calculate_churn` (src/python_analysis.py): identical to the query
above except that the reference date is the string literal
`'2024-12-31'` hard-coded inside `julianday(...)` — the function takes
no reference-date argument. -/
def calculate_churn (inactive_days : Int) (users : List Usr)
    (events : List Event) : List ChurnRow :=
  let asOf := daysFromCivil 2024 12 31
  let qualifying := users.filter (fun u => hasEvent events u)
  (sortDedup (· ≤ ·) (qualifying.map (fun u => u.plan))).map (fun p =>
    let us := qualifying.filter (fun u => u.plan = p)
    let churned :=
      (us.filter (fun u => inactive_days < asOf - lastActivity events u.user_id)).length
    { plan := p
      total_users := us.length
      churned := churned
      churn_rate := round2 (100 * (churned : ℚ) / us.length) })

/-- A row of the `feature_adoption` output. -/
structure FeatureRow where
  feature : String
  total_uses : Nat
  unique_users : Nat
  avg_duration : ℚ
  days_active : Nat
deriving DecidableEq, Repr

/-- `feature_adoption` (src/python_analysis.py): events with non-null
`feature` grouped by feature (ascending key order out of the GROUP
BY), then `ORDER BY total_uses DESC` — a stable sort on the single key
`total_uses` descending, with no secondary sort key in the query. -/
def feature_adoption (events : List Event) : List FeatureRow :=
  let grouped := (sortDedup (· ≤ ·) (events.filterMap (fun e => e.feature))).map (fun f =>
    let es := events.filter (fun e => e.feature = some f)
    { feature := f
      total_uses := es.length
      unique_users := distinctCount (es.map (fun e => e.user_id))
      avg_duration := round2 ((es.map (fun e => e.session_duration)).sum / es.length)
      days_active := distinctCount (es.map (fun e => e.date)) : FeatureRow })
  List.insertionSort (fun a b => b.total_uses ≤ a.total_uses) grouped

/-- A row of the `user_segmentation` output.  `avg_session_duration`
is `AVG` over the joined events, hence NULL (`none`) for a user with
no events. -/
structure SegmentRow where
  user_id : Nat
  plan : String
  country : String
  total_events : Nat
  active_days : Nat
  features_used : Nat
  avg_session_duration : Option ℚ
  engagement_level : String
deriving DecidableEq, Repr

/-- The `GROUP BY u.user_id, u.plan, u.country` key of a user row. -/
def tripleOf (u : Usr) : Nat × String × String := (u.user_id, u.plan, u.country)

/-- Lexicographic order on the segmentation group key. -/
def tripleLe (a b : Nat × String × String) : Prop :=
  a.1 < b.1 ∨ (a.1 = b.1 ∧ (a.2.1 < b.2.1 ∨ (a.2.1 = b.2.1 ∧ a.2.2 ≤ b.2.2)))

instance : DecidableRel tripleLe := fun a b => by
  unfold tripleLe
  infer_instance

/-- `user_segmentation` (src/python_analysis.py): users LEFT JOIN
events on `user_id`, grouped by `(user_id, plan, country)` ascending.
`COUNT(e.event_id)` counts matched events (0 on the null row of an
event-less user), `COUNT(DISTINCT e.feature)` skips NULL features,
`AVG(e.session_duration)` is NULL for an event-less user. -/
def user_segmentation (users : List Usr) (events : List Event) : List SegmentRow :=
  (sortDedup tripleLe (users.map tripleOf)).map (fun t =>
    let es := events.filter (fun e => e.user_id = t.1)
    { user_id := t.1
      plan := t.2.1
      country := t.2.2
      total_events := es.length
      active_days := distinctCount (es.map (fun e => e.date))
      features_used := distinctCount (es.filterMap (fun e => e.feature))
      avg_session_duration :=
        if es.isEmpty then none
        else some (round2 ((es.map (fun e => e.session_duration)).sum / es.length))
      engagement_level :=
        if 100 < es.length then "High" else if 20 < es.length then "Medium" else "Low" })

/-! ### Arithmetic helper lemmas -/

theorem round2_nonneg {q : ℚ} (h : 0 ≤ q) : 0 ≤ round2 q := by
  unfold round2
  have h1 : (0 : ℤ) ≤ ⌊q * 100 + 1 / 2⌋ := Int.floor_nonneg.mpr (by positivity)
  have h2 : (0 : ℚ) ≤ (⌊q * 100 + 1 / 2⌋ : ℚ) := by exact_mod_cast h1
  exact div_nonneg h2 (by norm_num)

theorem round2_le_hundred {q : ℚ} (h : q ≤ 100) : round2 q ≤ 100 := by
  unfold round2
  rw [div_le_iff₀ (by norm_num : (0 : ℚ) < 100)]
  have hlt : q * 100 + 1 / 2 < ((10001 : ℤ) : ℚ) := by push_cast; linarith
  have h1 : ⌊q * 100 + 1 / 2⌋ < 10001 := Int.floor_lt.mpr hlt
  have h2 : ⌊q * 100 + 1 / 2⌋ ≤ 10000 := by omega
  have h3 : ((⌊q * 100 + 1 / 2⌋ : ℤ) : ℚ) ≤ ((10000 : ℤ) : ℚ) := by exact_mod_cast h2
  calc ((⌊q * 100 + 1 / 2⌋ : ℤ) : ℚ) ≤ 10000 := by exact_mod_cast h3
    _ = 100 * 100 := by norm_num

theorem round2_eval_0_1 : round2 (100 * ((0 : ℕ) : ℚ) / ((1 : ℕ) : ℚ)) = 0 := by
  norm_num [round2]

theorem round2_eval_1_1 : round2 (100 * ((1 : ℕ) : ℚ) / ((1 : ℕ) : ℚ)) = 100 := by
  norm_num [round2]

theorem round2_eval_1_2 : round2 (100 * ((1 : ℕ) : ℚ) / ((2 : ℕ) : ℚ)) = 50 := by
  norm_num [round2]

theorem round2_eval_2_2 : round2 (100 * ((2 : ℕ) : ℚ) / ((2 : ℕ) : ℚ)) = 100 := by
  norm_num [round2]

/-! ### Concrete snapshots used by the claims (dates written via
`daysFromCivil` so they can be read as calendar dates) -/

/-- The spec's retention example: u1 at 2024-01-01 and 2024-01-08,
u2 at 2024-01-01. -/
def exEvents : List Event :=
  [⟨1, 1, daysFromCivil 2024 1 1, none, 0⟩,
   ⟨2, 1, daysFromCivil 2024 1 8, none, 0⟩,
   ⟨3, 2, daysFromCivil 2024 1 1, none, 0⟩]

/-- One single user (id 1) with a first event on 2024-01-01 and two
events exactly 7 days later, on 2024-01-08. -/
def fanoutEvents : List Event :=
  [⟨1, 1, daysFromCivil 2024 1 1, none, 0⟩,
   ⟨2, 1, daysFromCivil 2024 1 8, none, 0⟩,
   ⟨3, 1, daysFromCivil 2024 1 8, none, 0⟩]

/-- The spec's churn example users: u1 and u2, both on planA. -/
def churnUsers : List Usr :=
  [⟨1, 0, "planA", "US"⟩, ⟨2, 0, "planA", "US"⟩]

/-- The spec's churn example events: u1 last active 2024-11-01, u2
last active 2024-01-01. -/
def churnEvents : List Event :=
  [⟨1, 1, daysFromCivil 2024 11 1, none, 0⟩,
   ⟨2, 2, daysFromCivil 2024 1 1, none, 0⟩]

/-- A single user on planA whose only activity is on 2023-01-01. -/
def c3Users : List Usr := [⟨1, 0, "planA", "US"⟩]

/-- The single event of that user, dated 2023-01-01 (which is also the
maximum observed event date of the snapshot). -/
def c3Events : List Event := [⟨1, 1, daysFromCivil 2023 1 1, none, 0⟩]

/-- A single user on planA with one event on 2024-01-01. -/
def c4Users : List Usr := [⟨1, 0, "planA", "US"⟩]

/-- The single event of that user, dated 2024-01-01. -/
def c4Events : List Event := [⟨1, 1, daysFromCivil 2024 1 1, none, 0⟩]

/-- A single user (id 1, planA) with no events at all. -/
def c6Users : List Usr := [⟨1, 0, "planA", "US"⟩]

/-- One event of user id 9, who appears in no Users relation used with
it (an orphan event). -/
def orphanEvents : List Event := [⟨1, 9, daysFromCivil 2024 1 1, none, 0⟩]

/-! ### Claim theorems -/

/-- C1: evaluation of `calculate_retention` at the spec's example and
at a failing input.  On `exEvents` the code does return the claimed
numbers (cohort 2024-01: total 2, retained 1, rate 50).  But on
`fanoutEvents` — a single user whose first event is 2024-01-01 and who
has two events exactly 7 days later — the LEFT JOIN of the
`retention_check` CTE fans out to one row per matching event, and the
code reports `total_users = 2` and `retained_users = 2` for a cohort
containing exactly one user, contradicting the claim that
`total_users` is the number of users of the cohort and
`retained_users` the number of retained users. -/
theorem C1_retention_join_fanout :
    calculate_retention 7 exEvents =
      [⟨monthOf (daysFromCivil 2024 1 1), 2, 1, 50⟩]
    ∧ calculate_retention 7 fanoutEvents =
      [⟨monthOf (daysFromCivil 2024 1 1), 2, 2, 100⟩]
    ∧ distinctCount (fanoutEvents.map (fun e => e.user_id)) = 1 := by
  have hex : calculate_retention 7 exEvents
      = [⟨monthOf (daysFromCivil 2024 1 1), 2, 1,
          round2 (100 * ((1 : ℕ) : ℚ) / ((2 : ℕ) : ℚ))⟩] := rfl
  have hfan : calculate_retention 7 fanoutEvents
      = [⟨monthOf (daysFromCivil 2024 1 1), 2, 2,
          round2 (100 * ((2 : ℕ) : ℚ) / ((2 : ℕ) : ℚ))⟩] := rfl
  refine ⟨?_, ?_, by decide⟩
  · rw [hex, round2_eval_1_2]
  · rw [hfan, round2_eval_2_2]

/-- C2 counterexample: on the spec's own churn example (u1 last active
2024-11-01, u2 last active 2024-01-01, both planA, threshold 30,
reference date 2024-12-31) the code churns both users — u1 is 60 days
inactive, which exceeds 30 — so planA yields churned = 2 and
churn_rate = 100, not churned = 1 and churn_rate = 50 as claimed. -/
theorem C2_example_refuted :
    calculate_churn 30 churnUsers churnEvents = [⟨"planA", 2, 2, 100⟩]
    ∧ calculate_churn 30 churnUsers churnEvents ≠ [⟨"planA", 2, 1, 50⟩]
    ∧ daysFromCivil 2024 12 31 - daysFromCivil 2024 11 1 = 60 := by
  have h : calculate_churn 30 churnUsers churnEvents
      = [⟨"planA", 2, 2, round2 (100 * ((2 : ℕ) : ℚ) / ((2 : ℕ) : ℚ))⟩] := rfl
  refine ⟨?_, ?_, by decide⟩
  · rw [h, round2_eval_2_2]
  · rw [h, round2_eval_2_2]
    decide

/-- C3 counterexample: `calculate_churn` takes no reference-date
argument and always uses the hard-coded date 2024-12-31.  On a
snapshot whose maximum observed event date is 2023-01-01 the code
reports the single planA user as churned (days_inactive = 730 > 30),
whereas churn computed as of the max observed event date — the
claimed default — reports 0 churned; the two outputs differ, so the
output does not reflect a caller-supplied or default reference
date. -/
theorem C3_reference_date_is_fixed :
    calculate_churn 30 c3Users c3Events = [⟨"planA", 1, 1, 100⟩]
    ∧ churnWithAsOf (daysFromCivil 2023 1 1) 30 c3Users c3Events = [⟨"planA", 1, 0, 0⟩]
    ∧ maximumD (c3Events.map (fun e => e.date)) = daysFromCivil 2023 1 1
    ∧ calculate_churn 30 c3Users c3Events
        ≠ churnWithAsOf (daysFromCivil 2023 1 1) 30 c3Users c3Events := by
  have ha : calculate_churn 30 c3Users c3Events
      = [⟨"planA", 1, 1, round2 (100 * ((1 : ℕ) : ℚ) / ((1 : ℕ) : ℚ))⟩] := rfl
  have hb : churnWithAsOf (daysFromCivil 2023 1 1) 30 c3Users c3Events
      = [⟨"planA", 1, 0, round2 (100 * ((0 : ℕ) : ℚ) / ((1 : ℕ) : ℚ))⟩] := rfl
  refine ⟨?_, ?_, by decide, ?_⟩
  · rw [ha, round2_eval_1_1]
  · rw [hb, round2_eval_0_1]
  · rw [ha, hb, round2_eval_1_1, round2_eval_0_1]
    decide

/-- C3 amended: the churn reference date is not a parameter; for every
threshold and snapshot, `calculate_churn` equals the
reference-date-generalized churn evaluated at the hard-coded date
2024-12-31. -/
theorem C3_churn_uses_hardcoded_date (t : Int) (users : List Usr) (events : List Event) :
    calculate_churn t users events
      = churnWithAsOf (daysFromCivil 2024 12 31) t users events := rfl

/-- C4 counterexample: negative parameters are not rejected.
`calculate_churn` with `inactive_days = -1` computes and returns a
result table (churning the only user) instead of failing, and
`calculate_retention` with `days = -3` computes and returns a result
table (the malformed SQLite modifier makes the return-day comparison
never match, so `retained_users = 0`) instead of failing. -/
theorem C4_negative_parameters_accepted :
    calculate_churn (-1) c4Users c4Events = [⟨"planA", 1, 1, 100⟩]
    ∧ calculate_retention (-3) c4Events =
        [⟨monthOf (daysFromCivil 2024 1 1), 1, 0, 0⟩] := by
  have ha : calculate_churn (-1) c4Users c4Events
      = [⟨"planA", 1, 1, round2 (100 * ((1 : ℕ) : ℚ) / ((1 : ℕ) : ℚ))⟩] := rfl
  have hb : calculate_retention (-3) c4Events
      = [⟨monthOf (daysFromCivil 2024 1 1), 1, 0,
          round2 (100 * ((0 : ℕ) : ℚ) / ((1 : ℕ) : ℚ))⟩] := rfl
  exact ⟨by rw [ha, round2_eval_1_1], by rw [hb, round2_eval_0_1]⟩

/-- The ordering claimed for feature-adoption rows: `total_uses`
descending, ties broken by feature name ascending. -/
abbrev featOrder (x y : FeatureRow) : Prop :=
  y.total_uses < x.total_uses ∨ (x.total_uses = y.total_uses ∧ x.feature < y.feature)

theorem pairwise_orderedInsert_featOrder (a : FeatureRow) (l : List FeatureRow)
    (h1 : l.Pairwise featOrder) (h2 : ∀ y ∈ l, a.feature < y.feature) :
    (List.orderedInsert (fun x y => y.total_uses ≤ x.total_uses) a l).Pairwise featOrder := by
  induction l with
  | nil => simp [List.orderedInsert, featOrder]
  | cons b l ih =>
    obtain ⟨hb, htail⟩ := List.pairwise_cons.mp h1
    simp only [List.orderedInsert]
    split
    · rename_i hr
      refine List.pairwise_cons.mpr ⟨?_, h1⟩
      intro y hy
      rcases List.mem_cons.mp hy with rfl | hyl
      · rcases lt_or_eq_of_le hr with h | h
        · exact Or.inl h
        · exact Or.inr ⟨h.symm, h2 _ (List.mem_cons_self _ _)⟩
      · rcases hb y hyl with h | h
        · exact Or.inl (lt_of_lt_of_le h hr)
        · rcases lt_or_eq_of_le hr with h3 | h3
          · exact Or.inl (h.1 ▸ h3)
          · refine Or.inr ⟨?_, h2 _ (List.mem_cons_of_mem _ hyl)⟩
            rw [← h3]
            exact h.1
    · rename_i hr
      push_neg at hr
      refine List.pairwise_cons.mpr
        ⟨?_, ih htail (fun y hy => h2 y (List.mem_cons_of_mem _ hy))⟩
      intro y hy
      rcases (List.mem_orderedInsert _).mp hy with rfl | hyl
      · exact Or.inl hr
      · exact hb y hyl

theorem pairwise_insertionSort_featOrder (l : List FeatureRow)
    (h : l.Pairwise (fun x y => x.feature < y.feature)) :
    (List.insertionSort (fun x y => y.total_uses ≤ x.total_uses) l).Pairwise featOrder := by
  induction l with
  | nil => simp [List.insertionSort]
  | cons a l ih =>
    obtain ⟨ha, htail⟩ := List.pairwise_cons.mp h
    simp only [List.insertionSort]
    apply pairwise_orderedInsert_featOrder
    · exact ih htail
    · intro y hy
      exact ha y ((List.perm_insertionSort _ l).mem_iff.mp hy)

theorem pairwise_lt_sortDedup {α : Type} [LinearOrder α]
    [DecidableRel (fun a b : α => a ≤ b)] [DecidableEq α] (l : List α) :
    (sortDedup (· ≤ ·) l).Pairwise (· < ·) := by
  have hs : (sortDedup (· ≤ ·) l).Pairwise (· ≤ ·) := sorted_sortDedup _ l
  have hn : (sortDedup (· ≤ ·) l).Pairwise (· ≠ ·) := nodup_sortDedup _ l
  exact (hs.and hn).imp (fun h => lt_of_le_of_ne h.1 h.2)

/-- C5: for every Events snapshot, the `feature_adoption` output is
sorted by `total_uses` descending, and rows with equal `total_uses`
appear in feature-name-ascending order: the query's GROUP BY emits the
groups in feature order and the ORDER BY sorter is stable, so the
output order is fully deterministic. -/
theorem C5_feature_adoption_sorted (events : List Event) :
    (feature_adoption events).Pairwise (fun a b =>
      b.total_uses < a.total_uses
      ∨ (a.total_uses = b.total_uses ∧ a.feature < b.feature)) := by
  simp only [feature_adoption]
  apply pairwise_insertionSort_featOrder
  rw [List.pairwise_map]
  exact (@pairwise_lt_sortDedup String _ String.decidableLE instDecidableEqString
    (events.filterMap (fun e => e.feature))).imp (fun hab => hab)

/-- C6 counterexample: a user present in Users with zero events gets a
`user_segmentation` row whose `avg_session_duration` is NULL
(`none`) — the SQL `AVG` over no rows — not 0: the row with
`avg_session_duration = some 0` is not in the output. -/
theorem C6_avg_duration_is_null :
    user_segmentation c6Users [] =
      [⟨1, "planA", "US", 0, 0, 0, none, "Low"⟩]
    ∧ (⟨1, "planA", "US", 0, 0, 0, some 0, "Low"⟩ : SegmentRow)
        ∉ user_segmentation c6Users [] := by
  decide

theorem distinctCount_le_of_subset {l₁ l₂ : List Nat} (h : ∀ x ∈ l₁, x ∈ l₂) :
    distinctCount l₁ ≤ distinctCount l₂ := by
  unfold distinctCount
  rw [← List.card_toFinset, ← List.card_toFinset]
  apply Finset.card_le_card
  intro x hx
  rw [List.mem_toFinset] at hx ⊢
  exact h x hx

theorem usersOnDate_subset (events : List Event) (d : Int) :
    ∀ x ∈ usersOnDate events d, x ∈ usersInMonth events (monthOf d) := by
  intro x hx
  simp only [usersOnDate, usersInMonth, List.mem_map, List.mem_filter,
    decide_eq_true_eq] at hx ⊢
  obtain ⟨e, ⟨he, hed⟩, rfl⟩ := hx
  exact ⟨e, ⟨he, by rw [hed]⟩, rfl⟩

/-- C7: every DAU row's count is at most the MAU count of the calendar
month containing its date: the distinct users active on a day are a
subset of the distinct users active in that day's month. -/
theorem C7_dau_le_mau (events : List Event) (d : Int) (n k : Nat)
    (hd : (d, n) ∈ (calculate_dau_mau events).1)
    (hk : (monthOf d, k) ∈ (calculate_dau_mau events).2) : n ≤ k := by
  simp only [calculate_dau_mau, List.mem_map, Prod.mk.injEq] at hd hk
  obtain ⟨d', _, rfl, rfl⟩ := hd
  obtain ⟨m', _, hm, rfl⟩ := hk
  subst hm
  exact distinctCount_le_of_subset (usersOnDate_subset events d')

/-- Witness for C7 at the spec's example events: on 2024-01-01 the DAU
is 2 and the MAU of 2024-01 is 2. -/
theorem C7_dau_le_mau_witness :
    (daysFromCivil 2024 1 1, 2) ∈ (calculate_dau_mau exEvents).1
    ∧ (monthOf (daysFromCivil 2024 1 1), 2) ∈ (calculate_dau_mau exEvents).2
    ∧ (2 : ℕ) ≤ 2 :=
  ⟨by decide, by decide,
    C7_dau_le_mau exEvents (daysFromCivil 2024 1 1) 2 2 (by decide) (by decide)⟩

/-- C8: for every window and Events snapshot, each retention row has
`retained_users ≤ total_users` and a retention rate in [0, 100], and
the empty snapshot yields an empty result set (no division by
zero). -/
theorem C8_retention_invariants (days : Int) (events : List Event) :
    (∀ r ∈ calculate_retention days events,
        r.retained_users ≤ r.total_users
        ∧ 0 ≤ r.retention_rate ∧ r.retention_rate ≤ 100)
    ∧ calculate_retention days [] = [] := by
  constructor
  · intro r hr
    simp only [calculate_retention, List.mem_map] at hr
    obtain ⟨m, hm, rfl⟩ := hr
    have hex2 : ∃ x, x ∈ retention_check days events ∧ monthOf x.2.1 = m := by
      rw [mem_sortDedup, List.mem_map] at hm
      exact hm
    have hne : (retention_check days events).filter (fun x => monthOf x.2.1 = m) ≠ [] := by
      obtain ⟨x, hx, hxm⟩ := hex2
      intro hnil
      have hxmem : x ∈ (retention_check days events).filter (fun x => monthOf x.2.1 = m) :=
        List.mem_filter.mpr ⟨hx, by simpa using hxm⟩
      rw [hnil] at hxmem
      exact absurd hxmem (List.not_mem_nil x)
    have hpos : 0 < ((retention_check days events).filter (fun x => monthOf x.2.1 = m)).length :=
      List.length_pos.mpr hne
    have hle : (((retention_check days events).filter (fun x => monthOf x.2.1 = m)).filter
          (fun x => x.2.2 = 1)).length
        ≤ ((retention_check days events).filter (fun x => monthOf x.2.1 = m)).length :=
      List.length_filter_le _ _
    refine ⟨hle, round2_nonneg (by positivity), round2_le_hundred ?_⟩
    rw [div_le_iff₀ (by exact_mod_cast hpos)]
    have hc : ((((retention_check days events).filter (fun x => monthOf x.2.1 = m)).filter
          (fun x => x.2.2 = 1)).length : ℚ)
        ≤ (((retention_check days events).filter (fun x => monthOf x.2.1 = m)).length : ℚ) := by
      exact_mod_cast hle
    linarith
  · rfl

/-- Witness for C8 at the spec's example events. -/
theorem C8_retention_invariants_witness :
    ((1 : ℕ) ≤ 2 ∧ (0 : ℚ) ≤ 50 ∧ (50 : ℚ) ≤ 100) ∧ calculate_retention 7 [] = [] := by
  have hex : calculate_retention 7 exEvents
      = [⟨monthOf (daysFromCivil 2024 1 1), 2, 1,
          round2 (100 * ((1 : ℕ) : ℚ) / ((2 : ℕ) : ℚ))⟩] := rfl
  have hmem : (⟨monthOf (daysFromCivil 2024 1 1), 2, 1, (50 : ℚ)⟩ : RetentionRow)
      ∈ calculate_retention 7 exEvents := by
    rw [hex, round2_eval_1_2]
    exact List.mem_singleton.mpr rfl
  exact ⟨(C8_retention_invariants 7 exEvents).1 _ hmem, (C8_retention_invariants 7 []).2⟩

/-- C9: the per-month sub-query loop of `calculate_dau_mau` and the
single group-by-month query of `load_metrics` produce the same MAU
table on every Events snapshot. -/
theorem C9_mau_loop_eq_groupby (events : List Event) :
    (calculate_dau_mau events).2 = load_metrics_mau events := by
  simp only [calculate_dau_mau, load_metrics_mau]
  congr 1
  apply sortDedup_congr
  intro a
  simp only [List.mem_map, mem_sortDedup]
  constructor
  · rintro ⟨p, ⟨d, ⟨e, he, rfl⟩, rfl⟩, rfl⟩
    exact ⟨e, he, rfl⟩
  · rintro ⟨e, he, rfl⟩
    exact ⟨(e.date, distinctCount (usersOnDate events e.date)), ⟨e.date, ⟨e, he, rfl⟩, rfl⟩, rfl⟩

/-- C2 amended: each churn row counts exactly the users of its plan
having at least one event, of which those with
`days_inactive = 2024-12-31 minus last activity` strictly above the
threshold are churned, with the rate rounded to two decimals; on the
spec's example snapshot planA yields total_users = 2, churned = 2
(u1 is 60 days inactive and u2 is 365 days inactive, both beyond 30)
and churn_rate = 100.0. -/
theorem C2_churn_by_plan (t : Int) (users : List Usr) (events : List Event)
    (r : ChurnRow) (hr : r ∈ calculate_churn t users events) :
    (r.total_users
        = ((users.filter (fun u => hasEvent events u)).filter (fun u => u.plan = r.plan)).length
      ∧ r.churned
          = (((users.filter (fun u => hasEvent events u)).filter
                (fun u => u.plan = r.plan)).filter
              (fun u => t < daysFromCivil 2024 12 31 - lastActivity events u.user_id)).length
      ∧ r.churn_rate = round2 (100 * (r.churned : ℚ) / (r.total_users : ℚ)))
    ∧ calculate_churn 30 churnUsers churnEvents = [⟨"planA", 2, 2, 100⟩] := by
  constructor
  · simp only [calculate_churn, List.mem_map] at hr
    obtain ⟨p, hp, rfl⟩ := hr
    exact ⟨rfl, rfl, rfl⟩
  · have h : calculate_churn 30 churnUsers churnEvents
        = [⟨"planA", 2, 2, round2 (100 * ((2 : ℕ) : ℚ) / ((2 : ℕ) : ℚ))⟩] := rfl
    rw [h, round2_eval_2_2]

/-- Witness for C2 at the (corrected) churn example. -/
theorem C2_churn_by_plan_witness :
    ((2 : ℕ) = ((churnUsers.filter (fun u => hasEvent churnEvents u)).filter
          (fun u => u.plan = "planA")).length
      ∧ (2 : ℕ) = (((churnUsers.filter (fun u => hasEvent churnEvents u)).filter
            (fun u => u.plan = "planA")).filter
            (fun u => (30 : ℤ) < daysFromCivil 2024 12 31
              - lastActivity churnEvents u.user_id)).length
      ∧ (100 : ℚ) = round2 (100 * ((2 : ℕ) : ℚ) / ((2 : ℕ) : ℚ)))
    ∧ calculate_churn 30 churnUsers churnEvents = [⟨"planA", 2, 2, 100⟩] := by
  have h : calculate_churn 30 churnUsers churnEvents
      = [⟨"planA", 2, 2, round2 (100 * ((2 : ℕ) : ℚ) / ((2 : ℕ) : ℚ))⟩] := rfl
  have hmem : (⟨"planA", 2, 2, (100 : ℚ)⟩ : ChurnRow)
      ∈ calculate_churn 30 churnUsers churnEvents := by
    rw [h, round2_eval_2_2]
    exact List.mem_singleton.mpr rfl
  exact C2_churn_by_plan 30 churnUsers churnEvents _ hmem

theorem foldl_max_le {c : Int} : ∀ (xs : List Int) (x : Int), x ≤ c → (∀ y ∈ xs, y ≤ c) →
    xs.foldl max x ≤ c
  | [], _, hx, _ => hx
  | y :: ys, x, hx, hys => by
    simp only [List.foldl_cons]
    exact foldl_max_le ys (max x y) (max_le hx (hys y (List.mem_cons_self y ys)))
      (fun z hz => hys z (List.mem_cons_of_mem y hz))

theorem maximumD_le {c : Int} {l : List Int} (hne : l ≠ []) (h : ∀ x ∈ l, x ≤ c) :
    maximumD l ≤ c := by
  match l, hne with
  | x :: xs, _ =>
    simp only [maximumD]
    exact foldl_max_le xs x (h x (List.mem_cons_self x xs))
      (fun z hz => h z (List.mem_cons_of_mem x hz))

theorem lastActivity_le_of_all {events : List Event} {uid : Nat} {c : Int}
    (hne : events.any (fun e => e.user_id = uid) = true)
    (h : ∀ e ∈ events, e.date ≤ c) : lastActivity events uid ≤ c := by
  unfold lastActivity
  apply maximumD_le
  · rw [List.any_eq_true] at hne
    obtain ⟨e, he, hee⟩ := hne
    have hmem : e ∈ events.filter (fun e => e.user_id = uid) := List.mem_filter.mpr ⟨he, hee⟩
    intro hnil
    rw [List.map_eq_nil_iff] at hnil
    rw [hnil] at hmem
    exact absurd hmem (List.not_mem_nil e)
  · intro x hx
    rw [List.mem_map] at hx
    obtain ⟨e, he, rfl⟩ := hx
    exact h e (List.mem_filter.mp he).1

/-- With a negative window the interpolated SQLite modifier is
invalid, the join condition never matches, and every
`retention_check` row carries `returned = 0`. -/
theorem retention_check_neg {d : Int} (hd : d < 0) (events : List Event) :
    ∀ x ∈ retention_check d events, x.2.2 = 0 := by
  intro x hx
  simp only [retention_check, List.mem_flatMap] at hx
  obtain ⟨uid, _, hx⟩ := hx
  have hnone : sqliteDateAdd
      (minimumD ((events.filter (fun e => e.user_id = uid)).map (fun e => e.date))) d = none := by
    unfold sqliteDateAdd
    rw [if_pos hd]
  rw [hnone] at hx
  have hmatched : events.filter (fun e => e.user_id = uid ∧ some e.date = none) = [] := by
    rw [List.filter_eq_nil_iff]
    intro e _
    simp
  rw [hmatched] at hx
  simp only [List.isEmpty_nil, if_true, List.map_nil] at hx
  rw [List.mem_singleton] at hx
  rw [hx]

/-- C4 amended: the engine performs no parameter validation; negative
windows and thresholds flow into the aggregation.  With a negative
churn threshold every qualifying user is churned (whenever all event
dates are on or before the hard-coded reference date 2024-12-31,
days_inactive is nonnegative, hence above any negative threshold), and
with a negative retention window the malformed SQLite date modifier
makes the return-day match always fail, so every cohort reports
`retained_users = 0`. -/
theorem C4_negative_parameters_flow_through (t d : Int) (users : List Usr)
    (events : List Event) (ht : t < 0) (hd : d < 0)
    (hdates : ∀ e ∈ events, e.date ≤ daysFromCivil 2024 12 31) :
    (∀ r ∈ calculate_churn t users events, r.churned = r.total_users)
    ∧ (∀ r ∈ calculate_retention d events, r.retained_users = 0) := by
  constructor
  · intro r hr
    simp only [calculate_churn, List.mem_map] at hr
    obtain ⟨p, hp, rfl⟩ := hr
    have heq : (((users.filter (fun u => hasEvent events u)).filter (fun u => u.plan = p)).filter
          (fun u => t < daysFromCivil 2024 12 31 - lastActivity events u.user_id))
        = (users.filter (fun u => hasEvent events u)).filter (fun u => u.plan = p) := by
      apply List.filter_eq_self.mpr
      intro u hu
      have hq : u ∈ users.filter (fun u => hasEvent events u) := (List.mem_filter.mp hu).1
      have hev : hasEvent events u = true := (List.mem_filter.mp hq).2
      have hlast : lastActivity events u.user_id ≤ daysFromCivil 2024 12 31 :=
        lastActivity_le_of_all hev hdates
      simp only [decide_eq_true_eq]
      omega
    exact congrArg List.length heq
  · intro r hr
    simp only [calculate_retention, List.mem_map] at hr
    obtain ⟨m, hm, rfl⟩ := hr
    have hnil : ((retention_check d events).filter (fun x => monthOf x.2.1 = m)).filter
        (fun x => x.2.2 = 1) = [] := by
      rw [List.filter_eq_nil_iff]
      intro x hx
      have hx0 : x.2.2 = 0 := retention_check_neg hd events x (List.mem_filter.mp hx).1
      simp [hx0]
    exact congrArg List.length hnil

/-- Witness for C4 amended at the concrete one-user snapshot with
threshold -1 and window -3. -/
theorem C4_negative_parameters_witness : ((1 : ℕ) = 1) ∧ ((0 : ℕ) = 0) := by
  have ha : calculate_churn (-1) c4Users c4Events
      = [⟨"planA", 1, 1, round2 (100 * ((1 : ℕ) : ℚ) / ((1 : ℕ) : ℚ))⟩] := rfl
  have hb : calculate_retention (-3) c4Events
      = [⟨monthOf (daysFromCivil 2024 1 1), 1, 0,
          round2 (100 * ((0 : ℕ) : ℚ) / ((1 : ℕ) : ℚ))⟩] := rfl
  have hmem1 : (⟨"planA", 1, 1, round2 (100 * ((1 : ℕ) : ℚ) / ((1 : ℕ) : ℚ))⟩ : ChurnRow)
      ∈ calculate_churn (-1) c4Users c4Events := by
    rw [ha]
    exact List.mem_singleton.mpr rfl
  have hmem2 : (⟨monthOf (daysFromCivil 2024 1 1), 1, 0,
      round2 (100 * ((0 : ℕ) : ℚ) / ((1 : ℕ) : ℚ))⟩ : RetentionRow)
      ∈ calculate_retention (-3) c4Events := by
    rw [hb]
    exact List.mem_singleton.mpr rfl
  exact ⟨(C4_negative_parameters_flow_through (-1) (-3) c4Users c4Events (by norm_num)
      (by norm_num) (by decide)).1 _ hmem1,
    (C4_negative_parameters_flow_through (-1) (-3) c4Users c4Events (by norm_num)
      (by norm_num) (by decide)).2 _ hmem2⟩

/-- C6 amended: a user present in Users with zero events appears in
`user_segmentation` with total_events = 0, active_days = 0,
features_used = 0, `avg_session_duration` NULL (not 0) and
engagement_level "Low", and is dropped entirely by `calculate_churn`:
removing the user from the Users relation leaves the churn output
unchanged. -/
theorem C6_zero_event_user (users : List Usr) (events : List Event) (u : Usr) (t : Int)
    (hu : u ∈ users) (hne : ∀ e ∈ events, e.user_id ≠ u.user_id) :
    (⟨u.user_id, u.plan, u.country, 0, 0, 0, none, "Low"⟩ : SegmentRow)
        ∈ user_segmentation users events
    ∧ calculate_churn t users events
        = calculate_churn t (users.filter (fun v => v.user_id ≠ u.user_id)) events := by
  have hes : events.filter (fun e => e.user_id = u.user_id) = [] := by
    rw [List.filter_eq_nil_iff]
    intro e he
    simpa using hne e he
  constructor
  · unfold user_segmentation
    apply List.mem_map.mpr
    refine ⟨(u.user_id, u.plan, u.country), ?_, ?_⟩
    · rw [mem_sortDedup]
      exact List.mem_map.mpr ⟨u, hu, rfl⟩
    · dsimp only
      rw [hes]
      rfl
  · have hq : (users.filter (fun v => v.user_id ≠ u.user_id)).filter
        (fun v => hasEvent events v) = users.filter (fun v => hasEvent events v) := by
      rw [List.filter_filter]
      apply List.filter_congr
      intro v _
      cases hev : hasEvent events v with
      | false => simp
      | true =>
        have hvne : v.user_id ≠ u.user_id := by
          intro hvu
          unfold hasEvent at hev
          rw [List.any_eq_true] at hev
          obtain ⟨e, he, hee⟩ := hev
          have hev2 : e.user_id = v.user_id := by simpa using hee
          exact hne e he (by rw [hev2, hvu])
        simp [hvne]
    simp only [calculate_churn]
    rw [hq]

/-- Witness for C6 amended at a concrete one-user, zero-event
snapshot. -/
theorem C6_zero_event_user_witness :
    (⟨1, "planA", "US", 0, 0, 0, none, "Low"⟩ : SegmentRow) ∈ user_segmentation c6Users []
    ∧ calculate_churn 30 c6Users []
        = calculate_churn 30 (c6Users.filter (fun v => v.user_id ≠ 1)) [] :=
  C6_zero_event_user c6Users [] ⟨1, 0, "planA", "US"⟩ 30 (by decide)
    (fun e he => absurd he (List.not_mem_nil e))

theorem hasEvent_restrict (users : List Usr) (events : List Event) (u : Usr) (hu : u ∈ users) :
    hasEvent (events.filter (fun e => users.any (fun v => v.user_id = e.user_id))) u
      = hasEvent events u := by
  apply Bool.coe_iff_coe.mp
  unfold hasEvent
  simp only [List.any_eq_true, List.mem_filter, decide_eq_true_eq]
  constructor
  · rintro ⟨e, ⟨he, _⟩, hee⟩
    exact ⟨e, he, hee⟩
  · rintro ⟨e, he, hee⟩
    exact ⟨e, ⟨he, ⟨u, hu, hee.symm⟩⟩, hee⟩

theorem lastActivity_restrict (users : List Usr) (events : List Event) (u : Usr)
    (hu : u ∈ users) :
    lastActivity (events.filter (fun e => users.any (fun v => v.user_id = e.user_id))) u.user_id
      = lastActivity events u.user_id := by
  unfold lastActivity
  congr 1
  congr 1
  rw [List.filter_filter]
  apply List.filter_congr
  intro e _
  cases hd : (decide (e.user_id = u.user_id)) with
  | false => simp [hd]
  | true =>
    simp only [Bool.true_and]
    rw [List.any_eq_true]
    exact ⟨u, hu, by simpa using (of_decide_eq_true hd).symm⟩

/-- Restricting Events to those whose `user_id` appears in Users does
not change the churn output: the inner join drops orphan events'
users entirely. -/
theorem churn_drops_orphan_events (t : Int) (users : List Usr) (events : List Event) :
    calculate_churn t users events
      = calculate_churn t users
          (events.filter (fun e => users.any (fun v => v.user_id = e.user_id))) := by
  simp only [calculate_churn]
  have hq : users.filter (fun v => hasEvent (events.filter
        (fun e => users.any (fun v => v.user_id = e.user_id))) v)
      = users.filter (fun v => hasEvent events v) :=
    List.filter_congr (fun v hv => hasEvent_restrict users events v hv)
  rw [hq]
  apply List.map_congr_left
  intro p _
  have hfil : ((users.filter (fun v => hasEvent events v)).filter (fun v => v.plan = p)).filter
        (fun v => t < daysFromCivil 2024 12 31 - lastActivity (events.filter
          (fun e => users.any (fun w => w.user_id = e.user_id))) v.user_id)
      = ((users.filter (fun v => hasEvent events v)).filter (fun v => v.plan = p)).filter
        (fun v => t < daysFromCivil 2024 12 31 - lastActivity events v.user_id) := by
    apply List.filter_congr
    intro v hv
    have hvu : v ∈ users := (List.mem_filter.mp ((List.mem_filter.mp hv).1)).1
    rw [lastActivity_restrict users events v hvu]
  rw [hfil]

/-- C10: `calculate_retention` is computed from Events alone — an
orphan event (its user absent from Users) still founds a cohort
member, so a cohort's `total_users` (here 1) can exceed the size of
the Users relation (here 0) — while `calculate_churn`'s inner join
ignores orphan events entirely: restricting Events to users present
in Users never changes the churn output, and the orphan-only snapshot
yields an empty churn table. -/
theorem C10_retention_counts_orphans :
    (∀ (t : Int) (users : List Usr) (events : List Event),
        calculate_churn t users events
          = calculate_churn t users
              (events.filter (fun e => users.any (fun v => v.user_id = e.user_id))))
    ∧ calculate_retention 7 orphanEvents = [⟨monthOf (daysFromCivil 2024 1 1), 1, 0, 0⟩]
    ∧ calculate_churn 30 [] orphanEvents = [] := by
  refine ⟨churn_drops_orphan_events, ?_, rfl⟩
  have hb : calculate_retention 7 orphanEvents
      = [⟨monthOf (daysFromCivil 2024 1 1), 1, 0,
          round2 (100 * ((0 : ℕ) : ℚ) / ((1 : ℕ) : ℚ))⟩] := rfl
  rw [hb, round2_eval_0_1]

end ProductAnalytics
